import Mathlib

/-!
Verification development for the Velden Vault denial extraction and
classification engine.

The embedding covers the two core modules:

* `src/app.py`, function `parse_835_files`: the segment tokenizer, the
  claim-context tracker, the adjustment (CAS) extractor with its
  contractual filter and bounded remark (LQ) lookahead, and the record
  assembler.
* `src/recoverability_matrix.py`: the manual classification table,
  the keyword fallback classifier `auto_classify_code`, the matrix
  loader `load_full_recoverability_matrix`, and the lookup
  `get_recoverability`.

Strings are manipulated through their underlying character lists so that
every definition evaluates by kernel reduction.  Python floats are
modelled by `PyFloat`: a finite value kept as an exact rational, positive
or negative infinity, or NaN; `pyFloat?` follows the CPython `float(str)`
grammar — optionally signed decimal literals with underscores and
scientific notation, and the `inf`/`infinity`/`nan` spellings.  IEEE-754
rounding and overflow to infinity are not modelled (finite magnitudes
stay exact), and CPython's acceptance of non-ASCII decimal digits and
whitespace is not modelled either; neither can produce NaN or affect a
sign, and no statement below depends on them.
-/

namespace VeldenVault

/-! ## Character-list string utilities -/

/-- Split a character list on a separator character, keeping empty parts,
mirroring Python `str.split(sep)`. -/
def splitOnChar (sep : Char) : List Char → List (List Char)
  | [] => [[]]
  | c :: cs =>
    let r := splitOnChar sep cs
    if c = sep then [] :: r
    else
      match r with
      | [] => [[c]]
      | h :: t => (c :: h) :: t

/-- Python `str.strip()`: drop leading and trailing whitespace. -/
def trimChars (l : List Char) : List Char :=
  ((l.dropWhile Char.isWhitespace).reverse.dropWhile Char.isWhitespace).reverse

/-- Python `str.strip()` on a `String`. -/
def pyStrip (s : String) : String := ⟨trimChars s.data⟩

/-- Substring containment test (Python `pat in s`) on character lists. -/
def containsSub (pat : List Char) : List Char → Bool
  | [] => List.isPrefixOf pat []
  | c :: rest => List.isPrefixOf pat (c :: rest) || containsSub pat rest

/-- Python `pat in s` for strings. -/
def occursIn (pat s : String) : Bool := containsSub pat.data s.data

/-- Python `str.lower()`. -/
def lowerStr (s : String) : String := ⟨s.data.map Char.toLower⟩

/-- Python `str.upper()`. -/
def upperStr (s : String) : String := ⟨s.data.map Char.toUpper⟩

/-- Python slicing `s[:n]` by characters. -/
def takeStr (n : Nat) (s : String) : String := ⟨s.data.take n⟩

/-! ## Python float values and `float(str)` parsing -/

/-- A Python float as the engine observes it: a finite value (kept as an
exact rational), positive or negative infinity, or NaN. -/
inductive PyFloat where
  | finite (q : ℚ)
  | posInf
  | negInf
  | nan
deriving DecidableEq, Repr

instance (n : Nat) : OfNat PyFloat n := ⟨PyFloat.finite n⟩

/-- Python `abs` on floats: `abs(nan)` is NaN and `abs(±inf)` is
infinity. -/
def PyFloat.abs : PyFloat → PyFloat
  | .finite q => .finite |q|
  | .posInf => .posInf
  | .negInf => .posInf
  | .nan => .nan

/-- Python `<=` on floats: every comparison against NaN is false. -/
def PyFloat.leb : PyFloat → PyFloat → Bool
  | .nan, _ => false
  | _, .nan => false
  | .negInf, _ => true
  | _, .posInf => true
  | .posInf, _ => false
  | _, .negInf => false
  | .finite a, .finite b => decide (a ≤ b)

instance : LE PyFloat := ⟨fun a b => PyFloat.leb a b = true⟩

instance (a b : PyFloat) : Decidable (a ≤ b) :=
  inferInstanceAs (Decidable (PyFloat.leb a b = true))

/-- Numeric value of a digit run, most significant first. -/
def digitsToNat (l : List Char) : Nat :=
  l.foldl (fun n c => 10 * n + (c.toNat - 48)) 0

/-- Value of a `(numerator, e)` representation as a rational. -/
def ratOfRep (p : Int × Nat) : ℚ := (p.1 : ℚ) / (10 : ℚ) ^ p.2

/-- Split at the first separator character, if any. -/
def splitFirst (isSep : Char → Bool) : List Char → List Char × Option (List Char)
  | [] => ([], none)
  | c :: rest =>
    if isSep c then ([], some rest)
    else
      let r := splitFirst isSep rest
      (c :: r.1, r.2)

/-- Tail of a CPython digit part after its leading digit:
`digit (["_"] digit)*` — every underscore must sit between two digits. -/
def digitTail : List Char → Bool
  | [] => true
  | '_' :: c :: rest => c.isDigit && digitTail rest
  | ['_'] => false
  | c :: rest => c.isDigit && digitTail rest

/-- CPython `digitpart`: a non-empty digit run with optional single
underscores between digits (PEP 515). -/
def validDigitPart : List Char → Bool
  | [] => false
  | c :: rest => c.isDigit && digitTail rest

/-- Remove the underscores of a validated digit part. -/
def stripUnd (l : List Char) : List Char := l.filter fun c => ¬c = '_'

/-- Parse an unsigned CPython float decimal literal,
`[digitpart] ["." [digitpart]] [("e"|"E") [sign] digitpart]` with at
least one mantissa digit, into `(digits, k)` with value
`digits * 10 ^ k`. -/
def parseUnsignedDec? (body : List Char) : Option (Nat × Int) :=
  let me := splitFirst (fun c => c = 'e' ∨ c = 'E') body
  let expVal? : Option Int :=
    match me.2 with
    | none => some 0
    | some ('-' :: r) =>
      if validDigitPart r then some (-(digitsToNat (stripUnd r) : Int)) else none
    | some ('+' :: r) =>
      if validDigitPart r then some ((digitsToNat (stripUnd r) : Int)) else none
    | some r =>
      if validDigitPart r then some ((digitsToNat (stripUnd r) : Int)) else none
  match expVal? with
  | none => none
  | some k =>
    let ipfp := splitFirst (fun c => c = '.') me.1
    let ip := ipfp.1
    let fp := ipfp.2.getD []
    if (ip.isEmpty || validDigitPart ip) && (fp.isEmpty || validDigitPart fp)
        && !(ip.isEmpty && fp.isEmpty) then
      some (digitsToNat (stripUnd ip) * 10 ^ (stripUnd fp).length
          + digitsToNat (stripUnd fp), k - ((stripUnd fp).length : Int))
    else none

/-- Sign and remaining body of a float string, after the whitespace
trimming `float` itself performs. -/
def floatSignBody (l : List Char) : Bool × List Char :=
  match trimChars l with
  | '-' :: r => (true, r)
  | '+' :: r => (false, r)
  | r => (false, r)

/-- The `inf`/`infinity`/`nan` spellings (case-insensitive, optional
sign); the sign of NaN is discarded, as in Python. -/
def parseSpecial? (l : List Char) : Option PyFloat :=
  let sb := floatSignBody l
  let low := sb.2.map Char.toLower
  if low = "inf".data ∨ low = "infinity".data then
    some (if sb.1 then PyFloat.negInf else PyFloat.posInf)
  else if low = "nan".data then some PyFloat.nan
  else none

/-- The finite-decimal case of `float(str)`, exposed as `(numerator, e)`
with value `numerator / 10 ^ e`; a non-negative net exponent is folded
into the numerator. -/
def parseSignedRep? (l : List Char) : Option (Int × Nat) :=
  let sb := floatSignBody l
  (parseUnsignedDec? sb.2).map fun p =>
    let rep : Int × Nat :=
      if 0 ≤ p.2 then ((p.1 : Int) * 10 ^ p.2.toNat, 0)
      else ((p.1 : Int), (-p.2).toNat)
    (if sb.1 then -rep.1 else rep.1, rep.2)

/-- Python `float` on a character list: the special spellings first,
else a signed decimal literal, else failure (a raised `ValueError`). -/
def parsePyFloat? (l : List Char) : Option PyFloat :=
  match parseSpecial? l with
  | some v => some v
  | none => (parseSignedRep? l).map fun p => PyFloat.finite (ratOfRep p)

/-- Python `float(s)` on a string. -/
def pyFloat? (s : String) : Option PyFloat := parsePyFloat? s.data

/-- `float(fields[j+1].replace('$', '').replace(',', '') or 0)` wrapped in
`try`/`except` defaulting to `0.0` (src/app.py lines 324-327): strip all
dollar signs and commas; an empty remainder is falsy, so `or 0` turns it
into `0.0`; a parse failure is caught and also yields `0.0`.
`amountChars` is the stripped character list. -/
def amountChars (s : String) : List Char :=
  s.data.filter fun c => ¬(c = '$' ∨ c = ',')

def parseAmount (s : String) : PyFloat :=
  if amountChars s = [] then PyFloat.finite 0
  else
    match parsePyFloat? (amountChars s) with
    | some v => v
    | none => PyFloat.finite 0

/-! ## Segment tokenizer (src/app.py lines 281-283) -/

/-- Normalize delimiters and split into non-empty trimmed segments:
`content.replace('\n', '~').replace('\r', '')`, split on `~`, strip each
piece, drop empties. -/
def tokenize (content : String) : List String :=
  let normalized : List Char :=
    (content.data.map fun c => if c = '\n' then '~' else c).filter fun c => c ≠ '\r'
  (((splitOnChar '~' normalized).map trimChars).filter fun l => l ≠ []).map
    fun l => (⟨l⟩ : String)

/-- Fields of one segment: `segment.split('*')` (src/app.py line 298). -/
def segFields (s : String) : List String :=
  (splitOnChar '*' s.data).map fun l => (⟨l⟩ : String)

/-! ## Claim context tracker (src/app.py lines 286-313) -/

/-- The mutable scan context: current claim id, patient and service date. -/
structure Ctx where
  claim_id : String
  patient : String
  service_date : String
deriving DecidableEq, Repr

/-- Context at the start of each file's scan (src/app.py lines 286-288). -/
def initCtx : Ctx := ⟨"N/A", "N/A", "N/A"⟩

/-- `CLP` handling (src/app.py lines 302-303): a claim-start segment with
at least 2 fields overwrites the claim id. -/
def updClaim (ctx : Ctx) (fields : List String) : Ctx :=
  if fields.headD "" = "CLP" ∧ 2 ≤ fields.length then
    { ctx with claim_id := fields.getD 1 "N/A" }
  else ctx

/-- `NM1` handling (src/app.py lines 306-308): a name segment with at
least 4 fields and qualifier `QC` overwrites the patient name. -/
def updPatient (ctx : Ctx) (fields : List String) : Ctx :=
  if fields.headD "" = "NM1" ∧ 4 ≤ fields.length ∧ fields.getD 1 "" = "QC" then
    { ctx with
      patient :=
        if 4 < fields.length then fields.getD 3 "" ++ " " ++ fields.getD 4 ""
        else fields.getD 3 "" }
  else ctx

/-- `DTM` handling (src/app.py lines 311-313): a date segment with at
least 3 fields and qualifier `232` overwrites the service date. -/
def updDate (ctx : Ctx) (fields : List String) : Ctx :=
  if fields.headD "" = "DTM" ∧ 3 ≤ fields.length ∧ fields.getD 1 "" = "232" then
    { ctx with service_date := fields.getD 2 "" }
  else ctx

/-- One scan step of the context tracker over a segment's fields. -/
def stepCtx (ctx : Ctx) (fields : List String) : Ctx :=
  updDate (updPatient (updClaim ctx fields) fields) fields

/-! ## Adjustment extractor and record assembler (src/app.py lines 317-364) -/

/-- The group-code allow-set (src/app.py line 329). -/
def allowGroups : List String := ["CO", "PR", "OA", "PI", "CR"]

/-- The contractual-exclusion reason codes (src/app.py line 334). -/
def exclReasons : List String := ["45", "97", "59"]

/-- One output denial record (src/app.py lines 351-362). -/
structure DenialRecord where
  filename : String
  patient : String
  claim_id : String
  service_date : String
  group_code : String
  reason_code : String
  code_display : String
  amount : PyFloat
  charge : PyFloat
  rarc : String
deriving DecidableEq, Repr

/-- Assemble one denial record from the current context and one
adjustment triplet (src/app.py lines 351-362); `a` is the raw amount
field, stored as the absolute value of its parse. -/
def mkRecord (fn : String) (ctx : Ctx) (g r a rarc : String) : DenialRecord :=
  { filename := fn
    patient := takeStr 50 ctx.patient
    claim_id := ctx.claim_id
    service_date := ctx.service_date
    group_code := g
    reason_code := r
    code_display := g ++ "-" ++ r
    amount := (parseAmount a).abs
    charge := 0
    rarc := rarc }

/-- The lookahead's attachment test (src/app.py line 344): an `LQ`
segment with at least 3 fields. -/
def qualLQ (s : String) : Prop :=
  (segFields s).headD "" = "LQ" ∧ 3 ≤ (segFields s).length

/-- The lookahead's early-stop test (src/app.py line 348): a `CAS`, `CLP`
or `SE` segment. -/
def boundSeg (s : String) : Prop :=
  (segFields s).headD "" ∈ (["CAS", "CLP", "SE"] : List String)

instance (s : String) : Decidable (qualLQ s) := by unfold qualLQ; infer_instance

instance (s : String) : Decidable (boundSeg s) := by unfold boundSeg; infer_instance

/-- Bounded forward search for the remark code (src/app.py lines 341-349):
`for k in range(i + 1, min(i + 10, len(segments)))` examines at most the
next 9 segments; the first `LQ` segment with at least 3 fields supplies
field 2; an intervening `CAS`, `CLP` or `SE` segment stops the search with
the remark code still empty.  `fuel` is the number of loop iterations
remaining (9 at the call site); the list is the segments after the
adjustment segment. -/
def scanRemark : Nat → List String → String
  | _, [] => ""
  | 0, _ => ""
  | fuel + 1, seg :: rest =>
    if qualLQ seg then (segFields seg).getD 2 ""
    else if boundSeg seg then ""
    else scanRemark fuel rest

/-- The `while j + 1 < len(fields)` loop of the extractor (src/app.py
lines 321-364), acting on the fields from index 2 on: consume
`(reason, amount, quantity)` triplets; emit a record when the reason code
is non-empty, the group code is allowed and the reason code is not
contractual-excluded; advance by 3 regardless.  `la` is the list of
segments after the current one, consulted by the remark lookahead. -/
def expandTriplets (fn : String) (ctx : Ctx) (g : String) (la : List String) :
    List String → List DenialRecord
  | r :: a :: _ :: rest =>
    (if r ≠ "" ∧ g ∈ allowGroups then
      if r ∈ exclReasons then []
      else [mkRecord fn ctx g r a (scanRemark 9 la)]
    else []) ++ expandTriplets fn ctx g la rest
  | [r, a] =>
    if r ≠ "" ∧ g ∈ allowGroups then
      if r ∈ exclReasons then []
      else [mkRecord fn ctx g r a (scanRemark 9 la)]
    else []
  | _ => []

/-- The main scan loop over a file's segments (src/app.py lines 297-364):
update the context from the segment, then, for a `CAS` segment with at
least 4 fields, expand its triplets with field 1 as the group code and
the remaining segments as the lookahead window. -/
def scanSegs (fn : String) : Ctx → List String → List DenialRecord
  | _, [] => []
  | ctx, seg :: rest =>
    let fields := segFields seg
    let ctx' := stepCtx ctx fields
    (if fields.headD "" = "CAS" ∧ 4 ≤ fields.length then
      expandTriplets fn ctx' (fields.getD 1 "") rest (fields.drop 2)
    else []) ++ scanSegs fn ctx' rest

/-- Scan one file: tokenize, then walk the segments from a fresh context. -/
def scanFile (fn : String) (content : String) : List DenialRecord :=
  scanSegs fn initCtx (tokenize content)

/-- `parse_835_files` over `(content, filename)` pairs: files are scanned
independently and their record sequences concatenated in arrival order. -/
def parse835Files (files : List (String × String)) : List DenialRecord :=
  files.foldr (fun cf acc => scanFile cf.2 cf.1 ++ acc) []

/-! ## Classification matrix (src/recoverability_matrix.py) -/

/-- One classification entry: `{status, category, fixable, action,
description}`.  Entries of the manual table carry no description key in
the source; they are modelled with an empty description, which the
loader overwrites with the official description. -/
structure RecEntry where
  status : String
  category : String
  fixable : Option Bool
  action : String
  description : String
deriving DecidableEq, Repr

/-- Entry constructor for the manual table (description initially absent). -/
def manEntry (st cat : String) (fx : Option Bool) (act : String) : RecEntry :=
  ⟨st, cat, fx, act, ""⟩

/-- `MANUAL_CLASSIFICATIONS` (src/recoverability_matrix.py lines 47-136),
transcribed row for row. -/
def manualClassifications : List (String × RecEntry) := [
  ("1", manEntry "PATIENT_RESPONSIBILITY" "Deductible" (some false) "Bill patient for deductible amount"),
  ("2", manEntry "PATIENT_RESPONSIBILITY" "Coinsurance" (some false) "Bill patient for coinsurance amount"),
  ("3", manEntry "PATIENT_RESPONSIBILITY" "Copay" (some false) "Bill patient for copay amount"),
  ("66", manEntry "PATIENT_RESPONSIBILITY" "Blood Deductible" (some false) "Bill patient"),
  ("4", manEntry "VELDEN_FIXABLE" "Modifier Error" (some true) "Correct modifier settings in EHR and resubmit"),
  ("5", manEntry "VELDEN_FIXABLE" "Place of Service" (some true) "Update POS code and resubmit"),
  ("6", manEntry "VELDEN_FIXABLE" "Age Inconsistency" (some true) "Verify patient DOB and resubmit"),
  ("7", manEntry "VELDEN_FIXABLE" "Gender Inconsistency" (some true) "Verify patient gender and resubmit"),
  ("8", manEntry "VELDEN_FIXABLE" "Taxonomy Error" (some true) "Update provider taxonomy code in EHR"),
  ("9", manEntry "VELDEN_FIXABLE" "Diagnosis Age" (some true) "Review diagnosis for age appropriateness"),
  ("10", manEntry "VELDEN_FIXABLE" "Diagnosis Gender" (some true) "Review diagnosis for gender coding"),
  ("11", manEntry "VELDEN_FIXABLE" "Diagnosis/Procedure" (some true) "Match diagnosis to procedure code"),
  ("12", manEntry "VELDEN_FIXABLE" "Provider Type" (some true) "Update provider credentials"),
  ("15", manEntry "VELDEN_FIXABLE" "Modifier Error" (some true) "Update or match modifier to procedure code"),
  ("16", manEntry "VELDEN_FIXABLE" "Missing Info" (some true) "Add missing claim information and resubmit"),
  ("22", manEntry "PARTIALLY_RECOVERABLE" "COB Issue" (some true) "Verify coordination of benefits"),
  ("31", manEntry "PARTIALLY_RECOVERABLE" "Eligibility" (some true) "Verify patient eligibility and resubmit"),
  ("96", manEntry "VELDEN_FIXABLE" "Non-Covered" (some true) "Review coding alternatives"),
  ("109", manEntry "VELDEN_FIXABLE" "Wrong Payer" (some true) "Submit to correct payer"),
  ("140", manEntry "VELDEN_FIXABLE" "ID Mismatch" (some true) "Verify patient ID and name spelling"),
  ("146", manEntry "VELDEN_FIXABLE" "Diagnosis Error" (some true) "Update diagnosis code"),
  ("167", manEntry "VELDEN_FIXABLE" "Diagnosis Issue" (some true) "Review diagnosis coding"),
  ("170", manEntry "VELDEN_FIXABLE" "Provider Type" (some true) "Update provider type/specialty"),
  ("171", manEntry "VELDEN_FIXABLE" "Facility Type" (some true) "Update facility type"),
  ("172", manEntry "VELDEN_FIXABLE" "Specialty" (some true) "Update provider specialty"),
  ("173", manEntry "VELDEN_FIXABLE" "Prescription" (some true) "Obtain prescription documentation"),
  ("181", manEntry "VELDEN_FIXABLE" "Procedure Invalid" (some true) "Update procedure code"),
  ("182", manEntry "VELDEN_FIXABLE" "Modifier Invalid" (some true) "Correct modifier code"),
  ("183", manEntry "VELDEN_FIXABLE" "Referring Provider" (some true) "Add referring provider NPI"),
  ("184", manEntry "VELDEN_FIXABLE" "Ordering Provider" (some true) "Add ordering provider NPI"),
  ("185", manEntry "VELDEN_FIXABLE" "Rendering Provider" (some true) "Verify rendering provider credentials"),
  ("199", manEntry "VELDEN_FIXABLE" "Revenue/Procedure" (some true) "Match revenue code to procedure"),
  ("206", manEntry "VELDEN_FIXABLE" "NPI Missing" (some true) "Add provider NPI"),
  ("207", manEntry "VELDEN_FIXABLE" "NPI Invalid" (some true) "Correct NPI format"),
  ("208", manEntry "VELDEN_FIXABLE" "NPI Mismatch" (some true) "Update NPI enrollment"),
  ("226", manEntry "VELDEN_FIXABLE" "Provider Info" (some true) "Submit required provider documentation"),
  ("227", manEntry "VELDEN_FIXABLE" "Patient Info" (some true) "Submit required patient documentation"),
  ("252", manEntry "VELDEN_FIXABLE" "Attachment Required" (some true) "Submit required attachment"),
  ("282", manEntry "VELDEN_FIXABLE" "Type of Bill" (some true) "Correct type of bill code"),
  ("45", manEntry "CONTRACTUAL" "Fee Schedule" (some false) "Contractual write-off per fee schedule"),
  ("97", manEntry "CONTRACTUAL" "Bundled" (some false) "Service bundled with primary procedure"),
  ("59", manEntry "CONTRACTUAL" "Multiple Procedure" (some false) "Multiple procedure reduction applied"),
  ("44", manEntry "CONTRACTUAL" "Prompt Pay" (some false) "Prompt pay discount applied"),
  ("29", manEntry "RESCUE_CANDIDATE" "Timely Filing" (some true) "HFS 1624 Override - Retroactive Eligibility Appeal"),
  ("197", manEntry "FATAL_PREVENTION" "Auth Missing" (some false) "PREVENTION: Install Roster Sentinel to catch pre-cert requirements"),
  ("198", manEntry "FATAL_PREVENTION" "Auth Exceeded" (some false) "PREVENTION: Roster Sentinel tracks auth unit limits"),
  ("18", manEntry "UNRECOVERABLE" "Duplicate" (some false) "Exact duplicate - already paid"),
  ("26", manEntry "UNRECOVERABLE" "Pre-Coverage" (some false) "Service before coverage effective date"),
  ("27", manEntry "UNRECOVERABLE" "Post-Coverage" (some false) "Service after coverage terminated"),
  ("35", manEntry "UNRECOVERABLE" "Lifetime Max" (some false) "Lifetime benefit exhausted"),
  ("39", manEntry "FATAL_PREVENTION" "Auth Denied" (some false) "PREVENTION: Roster Sentinel pre-auth workflow"),
  ("50", manEntry "UNRECOVERABLE" "Medical Necessity" (some false) "Requires clinical appeal - low success rate"),
  ("55", manEntry "UNRECOVERABLE" "Experimental" (some false) "Experimental/investigational procedure"),
  ("119", manEntry "UNRECOVERABLE" "Benefit Max" (some false) "Period benefit maximum reached"),
  ("149", manEntry "UNRECOVERABLE" "Lifetime Max" (some false) "Lifetime service maximum reached"),
  ("204", manEntry "UNRECOVERABLE" "Not Covered" (some false) "Service not covered under plan")]

/-- `code in MANUAL_CLASSIFICATIONS` / `MANUAL_CLASSIFICATIONS[code]`. -/
def manualLookup (code : String) : Option RecEntry :=
  (manualClassifications.find? fun p => p.1 = code).map fun p => p.2

/-- `patient_keywords` (src/recoverability_matrix.py line 177). -/
def patientKeywords : List String :=
  ["deductible", "coinsurance", "copay", "co-pay", "patient responsibility"]

/-- `timely_keywords` (line 190). -/
def timelyKeywords : List String := ["timely", "time limit", "filing deadline"]

/-- `auth_keywords` (line 202). -/
def authKeywords : List String :=
  ["authorization", "precertification", "precert", "pre-cert", "prior auth"]

/-- `unrecoverable_keywords` (lines 214-215). -/
def unrecoverableKeywords : List String :=
  ["expired", "terminated", "maximum", "lifetime", "not covered",
   "experimental", "investigational", "duplicate"]

/-- `contractual_keywords` (line 227). -/
def contractualKeywords : List String :=
  ["fee schedule", "contractual", "bundled", "included in", "allowance"]

/-- `fixable_keywords` (lines 239-242). -/
def fixableKeywords : List String :=
  ["missing", "invalid", "incomplete", "incorrect", "lacks",
   "not provided", "billing error", "submission error",
   "modifier", "taxonomy", "npi", "identifier", "provider",
   "diagnosis", "procedure code", "coding"]

set_option linter.unusedVariables false in
/-- `auto_classify_code` (src/recoverability_matrix.py lines 172-260):
keyword waterfall over the lowercased description, first match wins.
The `code` parameter is unused, as in the source. -/
def autoClassifyCode (code desc : String) : RecEntry :=
  let d := lowerStr desc
  if patientKeywords.any fun k => occursIn k d then
    ⟨"PATIENT_RESPONSIBILITY", "Patient Balance", some false,
      "Bill patient for applicable amount", desc⟩
  else if timelyKeywords.any fun k =>
      occursIn k d && !occursIn "authorization" d && !occursIn "precert" d then
    ⟨"RESCUE_CANDIDATE", "Timely Filing", some true,
      "HFS 1624 Override Appeal", desc⟩
  else if authKeywords.any fun k => occursIn k d then
    ⟨"FATAL_PREVENTION", "Authorization", some false,
      "PREVENTION: Install Roster Sentinel", desc⟩
  else if unrecoverableKeywords.any fun k => occursIn k d then
    ⟨"UNRECOVERABLE", "Policy Limit", some false,
      "No recovery path available", desc⟩
  else if contractualKeywords.any fun k => occursIn k d then
    ⟨"CONTRACTUAL", "Contractual", some false,
      "Standard contractual adjustment", desc⟩
  else if fixableKeywords.any fun k => occursIn k d then
    ⟨"VELDEN_FIXABLE", "Billing Issue", some true,
      "Correct and resubmit claim", desc⟩
  else
    ⟨"REVIEW_REQUIRED", "Unknown", none, "Manual review required", desc⟩

/-! ## Matrix loader (src/recoverability_matrix.py lines 138-170) -/

/-- The reference CSV, abstracted: its column names and its rows, one
association list of column-name/cell pairs per row. -/
structure CsvTable where
  columns : List String
  rows : List (List (String × String))
deriving Repr

/-- Cell of a row under a column name (`row[col]`). -/
def rowGet (row : List (String × String)) (col : String) : String :=
  ((row.find? fun p => p.1 = col).map fun p => p.2).getD ""

/-- `[c for c in df.columns if 'CODE' in c.upper() and 'DESC' not in
c.upper()][0]` (line 150), as an `Option` since `[0]` of an empty list
raises and the raise is caught by the surrounding `except`. -/
def findCodeCol (cols : List String) : Option String :=
  cols.find? fun c => occursIn "CODE" (upperStr c) && !occursIn "DESC" (upperStr c)

/-- `[c for c in df.columns if 'DESC' in c.upper()][0]` (line 151). -/
def findDescCol (cols : List String) : Option String :=
  cols.find? fun c => occursIn "DESC" (upperStr c)

/-- `if '\n' in desc: desc = desc.split('\n')[0]` (lines 156-157). -/
def firstLine (s : String) : String :=
  ((splitOnChar '\n' s.data).headD s.data : List Char) |> fun l => (⟨l⟩ : String)

/-- Python dict assignment `full_matrix[code] = info` on an insertion-
ordered association list: replace in place when the key exists, append
otherwise. -/
def insertEntry (m : List (String × RecEntry)) (k : String) (v : RecEntry) :
    List (String × RecEntry) :=
  if m.any fun p => p.1 = k then
    m.map fun p => if p.1 = k then (k, v) else p
  else m ++ [(k, v)]

/-- Body of the loader's row loop (lines 153-165): strip the code cell,
strip the description cell and cut it at the first newline, then store
either the manual entry enriched with the description or the
keyword-classified entry. -/
def loadRow (cc dc : String) (m : List (String × RecEntry))
    (row : List (String × String)) : List (String × RecEntry) :=
  let code := pyStrip (rowGet row cc)
  let desc := firstLine (pyStrip (rowGet row dc))
  let info :=
    match manualLookup code with
    | some e => { e with description := desc }
    | none => autoClassifyCode code desc
  insertEntry m code info

/-- `load_full_recoverability_matrix` (lines 138-170) over an abstract
reference source: `none` models the source file being absent; a failed
column search models the caught `IndexError`.  In both degraded cases the
matrix is empty. -/
def loadFullRecoverabilityMatrix : Option CsvTable → List (String × RecEntry)
  | none => []
  | some t =>
    match findCodeCol t.columns, findDescCol t.columns with
    | some cc, some dc => t.rows.foldl (loadRow cc dc) []
    | some _, none => []
    | none, _ => []

/-- `DEFAULT_STATUS` (src/recoverability_matrix.py lines 264-270). -/
def defaultStatus : RecEntry :=
  ⟨"REVIEW_REQUIRED", "Unknown", none, "Manual review required", "Code not found"⟩

/-- `get_recoverability` (lines 272-274): strip the queried code, look it
up in the loaded matrix, fall back to the default entry. -/
def getRecoverability (m : List (String × RecEntry)) (carc : String) : RecEntry :=
  ((m.find? fun p => p.1 = pyStrip carc).map fun p => p.2).getD defaultStatus

/-- The codes of a loaded matrix, in insertion order. -/
def keysOf (m : List (String × RecEntry)) : List String := m.map Prod.fst

/-- The shape invariant of a loaded entry: a manual-table code carries
its manual entry with only the description replaced; any other code
carries a keyword-classified entry for some description. -/
def entryOK (k : String) (v : RecEntry) : Prop :=
  (∀ e, manualLookup k = some e → v = { e with description := v.description })
  ∧ (manualLookup k = none → ∃ d, v = autoClassifyCode k d)

/-! ## Spec-side description of triplet consumption

`specTriplets` restates, in the spec's words, §4.3 step 2: "Starting at
field index 2, repeatedly consume triplets of (reason_code, amount,
quantity) — quantity is unread/ignored but its slot must be skipped to
realign — advancing the cursor by 3 each iteration, stopping when fewer
than 2 fields remain (i.e., the amount field is missing)."  It is
deliberately written from the spec, not the source, and is compared with
the source-derived `expandTriplets` in the refinement theorem. -/

/-- The (reason, amount) pairs the spec says the extractor consumes from
the fields starting at index 2. -/
def specTriplets : List String → List (String × String)
  | r :: a :: _ :: rest => (r, a) :: specTriplets rest
  | [r, a] => [(r, a)]
  | _ => []

/-! ## Helper lemmas: Python floats -/

theorem ofNat_eq_finite (n : Nat) :
    (OfNat.ofNat n : PyFloat) = PyFloat.finite n := rfl

theorem zero_le_finite_iff (q : ℚ) :
    (0 : PyFloat) ≤ PyFloat.finite q ↔ 0 ≤ q := by
  show PyFloat.leb _ _ = true ↔ _
  rw [ofNat_eq_finite]
  simp [PyFloat.leb]

theorem finite_abs (q : ℚ) :
    (PyFloat.finite q).abs = PyFloat.finite |q| := rfl

/-- `abs` of a Python float is non-negative unless it is NaN. -/
theorem zero_le_abs (x : PyFloat) : 0 ≤ x.abs ∨ x.abs = PyFloat.nan := by
  cases x with
  | finite q =>
    left
    rw [show (PyFloat.finite q).abs = PyFloat.finite |q| from rfl,
      zero_le_finite_iff]
    exact abs_nonneg q
  | posInf => left; rfl
  | negInf => left; rfl
  | nan => right; rfl

/-! ## Helper lemmas: extractor -/

/-- Uniform unfolding of the triplet loop: one step consumes the
(reason, amount, quantity) triplet and recurses past the quantity slot. -/
theorem expandTriplets_cons (fn : String) (ctx : Ctx) (g : String)
    (la : List String) (r a : String) (rest : List String) :
    expandTriplets fn ctx g la (r :: a :: rest) =
      (if r ≠ "" ∧ g ∈ allowGroups then
        if r ∈ exclReasons then []
        else [mkRecord fn ctx g r a (scanRemark 9 la)]
      else []) ++ expandTriplets fn ctx g la (rest.drop 1) := by
  cases rest with
  | nil => simp [expandTriplets]
  | cons q rest' => rfl

/-- Refinement: the extractor's loop emits exactly the spec-described
triplets that pass the filter, assembled into records. -/
theorem expandTriplets_eq_filterMap (fn : String) (ctx : Ctx) (g : String)
    (la : List String) (fs : List String) :
    expandTriplets fn ctx g la fs =
      (specTriplets fs).filterMap fun p =>
        if p.1 ≠ "" ∧ g ∈ allowGroups ∧ p.1 ∉ exclReasons then
          some (mkRecord fn ctx g p.1 p.2 (scanRemark 9 la))
        else none := by
  induction fs using specTriplets.induct with
  | case1 r a q rest ih =>
    rw [expandTriplets_cons]
    simp only [List.drop_succ_cons, List.drop_zero] at *
    rw [ih]
    simp only [specTriplets, List.filterMap_cons]
    by_cases h1 : r = "" <;> by_cases h2 : g ∈ allowGroups <;>
      by_cases h3 : r ∈ exclReasons <;> simp [h1, h2, h3]
  | case2 r a =>
    simp only [expandTriplets, specTriplets, List.filterMap_cons, List.filterMap_nil]
    by_cases h1 : r = "" <;> by_cases h2 : g ∈ allowGroups <;>
      by_cases h3 : r ∈ exclReasons <;> simp [h1, h2, h3]
  | case3 fs h1 h2 =>
    rcases fs with _ | ⟨r, _ | ⟨a, _ | ⟨q, rest⟩⟩⟩
    · rfl
    · rfl
    · exact absurd rfl (h2 r a)
    · exact absurd rfl (h1 r a q rest)

/-- Every record emitted by the triplet loop has a non-empty reason code
outside the exclusion set, an allowed group code, and a non-negative
amount. -/
theorem expandTriplets_mem_props (fn : String) (ctx : Ctx) (g : String)
    (la : List String) (fs : List String) (rec : DenialRecord)
    (h : rec ∈ expandTriplets fn ctx g la fs) :
    rec.reason_code ≠ "" ∧ rec.reason_code ∉ exclReasons ∧
      rec.group_code ∈ allowGroups ∧
      (0 ≤ rec.amount ∨ rec.amount = PyFloat.nan) := by
  rw [expandTriplets_eq_filterMap] at h
  rw [List.mem_filterMap] at h
  obtain ⟨p, _, hp⟩ := h
  by_cases hc : p.1 ≠ "" ∧ g ∈ allowGroups ∧ p.1 ∉ exclReasons
  · rw [if_pos hc] at hp
    cases hp
    exact ⟨hc.1, hc.2.2, hc.2.1, zero_le_abs _⟩
  · rw [if_neg hc] at hp
    cases hp

/-- Lifting of `expandTriplets_mem_props` to the per-file scan loop. -/
theorem scanSegs_mem_props (fn : String) (ctx : Ctx) (segs : List String)
    (rec : DenialRecord) (h : rec ∈ scanSegs fn ctx segs) :
    rec.reason_code ≠ "" ∧ rec.reason_code ∉ exclReasons ∧
      rec.group_code ∈ allowGroups ∧
      (0 ≤ rec.amount ∨ rec.amount = PyFloat.nan) := by
  induction segs generalizing ctx with
  | nil => cases h
  | cons seg rest ih =>
    rw [scanSegs] at h
    rcases List.mem_append.mp h with h' | h'
    · by_cases hc :
        (segFields seg).headD "" = "CAS" ∧ 4 ≤ (segFields seg).length
      · rw [if_pos hc] at h'
        exact expandTriplets_mem_props _ _ _ _ _ _ h'
      · rw [if_neg hc] at h'
        cases h'
    · exact ih _ h'

/-- Lifting to the multi-file entry point. -/
theorem parse835Files_mem_props (files : List (String × String))
    (rec : DenialRecord) (h : rec ∈ parse835Files files) :
    rec.reason_code ≠ "" ∧ rec.reason_code ∉ exclReasons ∧
      rec.group_code ∈ allowGroups ∧
      (0 ≤ rec.amount ∨ rec.amount = PyFloat.nan) := by
  induction files with
  | nil => cases h
  | cons cf rest ih =>
    rcases List.mem_append.mp h with h' | h'
    · exact scanSegs_mem_props _ _ _ _ h'
    · exact ih h'

/-! ## Helper lemmas: remark lookahead -/

/-- A boundary segment is never a qualifying remark segment. -/
theorem boundSeg_not_qualLQ (s : String) (hb : boundSeg s) : ¬qualLQ s := by
  intro hq
  obtain ⟨h1, _⟩ := hq
  rw [boundSeg, h1] at hb
  exact (by decide : ¬("LQ" ∈ (["CAS", "CLP", "SE"] : List String))) hb

/-- A qualifying remark segment reached before the fuel runs out, with no
earlier qualifying or boundary segment, is attached. -/
theorem scanRemark_attach (fuel : Nat) (pre : List String) (lq : String)
    (rest : List String) (hlen : pre.length < fuel)
    (hpre : ∀ s ∈ pre, ¬qualLQ s ∧ ¬boundSeg s) (hlq : qualLQ lq) :
    scanRemark fuel (pre ++ lq :: rest) = (segFields lq).getD 2 "" := by
  induction pre generalizing fuel with
  | nil =>
    cases fuel with
    | zero => omega
    | succ fuel' => simp only [List.nil_append, scanRemark, if_pos hlq]
  | cons s pre' ih =>
    obtain ⟨hq, hb⟩ := hpre s (List.mem_cons_self s pre')
    cases fuel with
    | zero => simp at hlen
    | succ fuel' =>
      simp only [List.cons_append, scanRemark, if_neg hq, if_neg hb]
      exact ih fuel' (by simpa using Nat.lt_of_succ_lt_succ hlen)
        (fun x hx => hpre x (List.mem_cons_of_mem _ hx))

/-- If no qualifying remark segment occurs within the fuel window, the
remark code stays empty: a remark segment further away is never
attached. -/
theorem scanRemark_far (fuel : Nat) (la : List String)
    (h : ∀ s ∈ la.take fuel, ¬qualLQ s) : scanRemark fuel la = "" := by
  induction fuel generalizing la with
  | zero => cases la <;> rfl
  | succ fuel' ih =>
    cases la with
    | nil => rfl
    | cons s rest =>
      have hs : ¬qualLQ s := h s (by simp)
      simp only [scanRemark, if_neg hs]
      by_cases hb : boundSeg s
      · rw [if_pos hb]
      · rw [if_neg hb]
        exact ih rest fun x hx => h x (by simp [hx])

/-- A boundary segment encountered before any qualifying remark segment
stops the search: a remark segment after it is never attached. -/
theorem scanRemark_boundary (fuel : Nat) (pre : List String) (b : String)
    (rest : List String) (hpre : ∀ s ∈ pre, ¬qualLQ s ∧ ¬boundSeg s)
    (hb : boundSeg b) : scanRemark fuel (pre ++ b :: rest) = "" := by
  induction pre generalizing fuel with
  | nil =>
    cases fuel with
    | zero => rfl
    | succ fuel' =>
      simp only [List.nil_append, scanRemark, if_neg (boundSeg_not_qualLQ b hb),
        if_pos hb]
  | cons s pre' ih =>
    obtain ⟨hq, hbs⟩ := hpre s (List.mem_cons_self s pre')
    cases fuel with
    | zero => rfl
    | succ fuel' =>
      simp only [List.cons_append, scanRemark, if_neg hq, if_neg hbs]
      exact ih fuel' (fun x hx => hpre x (List.mem_cons_of_mem _ hx))

/-! ## Helper lemmas: context tracker -/

theorem updClaim_patient (ctx : Ctx) (f : List String) :
    (updClaim ctx f).patient = ctx.patient := by
  rw [updClaim]; split <;> rfl

theorem updClaim_date (ctx : Ctx) (f : List String) :
    (updClaim ctx f).service_date = ctx.service_date := by
  rw [updClaim]; split <;> rfl

theorem updPatient_claim (ctx : Ctx) (f : List String) :
    (updPatient ctx f).claim_id = ctx.claim_id := by
  rw [updPatient]; split <;> rfl

theorem updPatient_date (ctx : Ctx) (f : List String) :
    (updPatient ctx f).service_date = ctx.service_date := by
  rw [updPatient]; split <;> rfl

theorem updDate_claim (ctx : Ctx) (f : List String) :
    (updDate ctx f).claim_id = ctx.claim_id := by
  rw [updDate]; split <;> rfl

theorem updDate_patient (ctx : Ctx) (f : List String) :
    (updDate ctx f).patient = ctx.patient := by
  rw [updDate]; split <;> rfl

theorem updPatient_skip (ctx : Ctx) (f : List String)
    (h : ¬(f.headD "" = "NM1" ∧ 4 ≤ f.length ∧ f.getD 1 "" = "QC")) :
    updPatient ctx f = ctx := by
  rw [updPatient, if_neg h]

theorem updDate_skip (ctx : Ctx) (f : List String)
    (h : ¬(f.headD "" = "DTM" ∧ 3 ≤ f.length ∧ f.getD 1 "" = "232")) :
    updDate ctx f = ctx := by
  rw [updDate, if_neg h]

/-! ## Helper lemmas: matrix loader -/

theorem any_key_iff (m : List (String × RecEntry)) (k : String) :
    (m.any fun p => p.1 = k) = true ↔ k ∈ keysOf m := by
  simp [keysOf, List.any_eq_true, List.mem_map]

theorem mem_insertEntry (m : List (String × RecEntry)) (k : String)
    (v : RecEntry) (p : String × RecEntry) (h : p ∈ insertEntry m k v) :
    p ∈ m ∨ p = (k, v) := by
  rw [insertEntry] at h
  split at h
  · rcases List.mem_map.mp h with ⟨q, hq, hq'⟩
    by_cases hk : q.1 = k
    · rw [if_pos hk] at hq'
      exact Or.inr hq'.symm
    · rw [if_neg hk] at hq'
      exact Or.inl (hq' ▸ hq)
  · rcases List.mem_append.mp h with h' | h'
    · exact Or.inl h'
    · exact Or.inr (List.mem_singleton.mp h')

theorem keysOf_replace (m : List (String × RecEntry)) (k : String) (v : RecEntry) :
    keysOf (m.map fun p => if p.1 = k then (k, v) else p) = keysOf m := by
  induction m with
  | nil => rfl
  | cons p t ih =>
    simp only [keysOf, List.map_cons] at *
    by_cases h : p.1 = k
    · rw [if_pos h, ih, h]
    · rw [if_neg h, ih]

theorem mem_keysOf_insertEntry (m : List (String × RecEntry)) (k : String)
    (v : RecEntry) (a : String) :
    a ∈ keysOf (insertEntry m k v) ↔ a ∈ keysOf m ∨ a = k := by
  rw [insertEntry]
  split
  · rw [keysOf_replace]
    constructor
    · exact Or.inl
    · rintro (h | rfl)
      · exact h
      · exact (any_key_iff m a).mp (by assumption)
  · simp [keysOf]

theorem nodup_keysOf_insertEntry (m : List (String × RecEntry)) (k : String)
    (v : RecEntry) (h : (keysOf m).Nodup) : (keysOf (insertEntry m k v)).Nodup := by
  rw [insertEntry]
  split
  · rw [keysOf_replace]; exact h
  · rename_i hany
    have hk : k ∉ keysOf m := fun hmem =>
      hany ((any_key_iff m k).mpr hmem)
    simp only [keysOf, List.map_append, List.map_cons, List.map_nil]
    rw [List.nodup_append]
    exact ⟨h, List.nodup_singleton k, by simpa [keysOf] using fun hmem => hk hmem⟩

theorem entryOK_loadRow (cc dc : String) (m : List (String × RecEntry))
    (row : List (String × String)) (h : ∀ p ∈ m, entryOK p.1 p.2) :
    ∀ p ∈ loadRow cc dc m row, entryOK p.1 p.2 := by
  intro p hp
  simp only [loadRow] at hp
  rcases mem_insertEntry _ _ _ _ hp with h' | h'
  · exact h p h'
  · subst h'
    constructor
    · intro e he
      simp [he]
    · intro he
      exact ⟨firstLine (pyStrip (rowGet row dc)), by simp [he]⟩

theorem keysOf_loadRow (cc dc : String) (m : List (String × RecEntry))
    (row : List (String × String)) (a : String) :
    a ∈ keysOf (loadRow cc dc m row) ↔
      a ∈ keysOf m ∨ a = pyStrip (rowGet row cc) := by
  simp only [loadRow]
  exact mem_keysOf_insertEntry _ _ _ _

theorem nodup_keysOf_loadRow (cc dc : String) (m : List (String × RecEntry))
    (row : List (String × String)) (h : (keysOf m).Nodup) :
    (keysOf (loadRow cc dc m row)).Nodup := by
  simp only [loadRow]
  exact nodup_keysOf_insertEntry _ _ _ h

theorem foldl_entryOK (cc dc : String) (rows : List (List (String × String))) :
    ∀ m0, (∀ p ∈ m0, entryOK p.1 p.2) →
      ∀ p ∈ rows.foldl (loadRow cc dc) m0, entryOK p.1 p.2 := by
  induction rows with
  | nil => intro m0 h p hp; exact h p hp
  | cons row rest ih =>
    intro m0 h p hp
    exact ih (loadRow cc dc m0 row) (entryOK_loadRow cc dc m0 row h) p hp

theorem foldl_keys (cc dc : String) (rows : List (List (String × String))) :
    ∀ m0 a, a ∈ keysOf (rows.foldl (loadRow cc dc) m0) ↔
      a ∈ keysOf m0 ∨ a ∈ rows.map fun row => pyStrip (rowGet row cc) := by
  induction rows with
  | nil => intro m0 a; simp
  | cons row rest ih =>
    intro m0 a
    rw [List.foldl_cons, ih (loadRow cc dc m0 row) a, keysOf_loadRow]
    simp only [List.map_cons, List.mem_cons]
    tauto

theorem foldl_nodup (cc dc : String) (rows : List (List (String × String))) :
    ∀ m0, (keysOf m0).Nodup → (keysOf (rows.foldl (loadRow cc dc) m0)).Nodup := by
  induction rows with
  | nil => intro m0 h; exact h
  | cons row rest ih =>
    intro m0 h
    exact ih (loadRow cc dc m0 row) (nodup_keysOf_loadRow cc dc m0 row h)

theorem find?_key_mem (m : List (String × RecEntry)) (k : String)
    (h : k ∈ keysOf m) :
    ∃ p, (m.find? fun q => q.1 = k) = some p ∧ p.1 = k ∧ p ∈ m := by
  induction m with
  | nil => simp [keysOf] at h
  | cons q t ih =>
    by_cases hq : q.1 = k
    · exact ⟨q, by simp [List.find?_cons, hq], hq, by simp⟩
    · have ht : k ∈ keysOf t := by
        simp only [keysOf, List.map_cons, List.mem_cons] at h
        rcases h with h | h
        · exact absurd h.symm hq
        · exact h
      obtain ⟨p, hfind, hpk, hpm⟩ := ih ht
      exact ⟨p, by simp [List.find?_cons, hq, hfind], hpk, by simp [hpm]⟩

theorem find?_key_none (m : List (String × RecEntry)) (k : String)
    (h : k ∉ keysOf m) : (m.find? fun q => q.1 = k) = none := by
  rw [List.find?_eq_none]
  intro p hp
  simp only [decide_eq_true_eq]
  intro hk
  exact h (List.mem_map.mpr ⟨p, hp, hk⟩)

/-- A lookup whose stripped code is a key returns a stored entry with
that key. -/
theorem getRecoverability_mem (m : List (String × RecEntry)) (c : String)
    (h : pyStrip c ∈ keysOf m) :
    ∃ p, p ∈ m ∧ p.1 = pyStrip c ∧ getRecoverability m c = p.2 := by
  obtain ⟨p, hfind, hpk, hpm⟩ := find?_key_mem m (pyStrip c) h
  exact ⟨p, hpm, hpk, by rw [getRecoverability, hfind]; rfl⟩

/-- A lookup whose stripped code is not a key returns the default. -/
theorem getRecoverability_default (m : List (String × RecEntry)) (c : String)
    (h : pyStrip c ∉ keysOf m) : getRecoverability m c = defaultStatus := by
  rw [getRecoverability, find?_key_none m (pyStrip c) h]
  rfl

/-! ## Helper lemmas: amount parsing -/

/-- Evaluation bridge for the amount parser: when the stripped field is
not a special spelling and parses to the finite representation `(n, e)`,
the parsed amount is the finite value `n / 10^e`. -/
theorem parseAmount_eq_rep (s : String) (n : Int) (e : Nat)
    (h1 : amountChars s ≠ [])
    (h2 : parseSpecial? (amountChars s) = none)
    (h3 : parseSignedRep? (amountChars s) = some (n, e)) :
    parseAmount s = PyFloat.finite ((n : ℚ) / (10 : ℚ) ^ e) := by
  simp [parseAmount, parsePyFloat?, h1, h2, h3, ratOfRep]

/-! ## Claims -/

/-- C3.  Contractual-exclusion filter invariant: no emitted record
carries reason code 45, 97 or 59, whatever the group code and amount;
a filtered triplet only skips itself — the loop continues past its
quantity slot — and a later triplet in the same segment is still
emitted (endic example: `CAS*PR*45*10*1*1*20*1` emits exactly the
`PR-1` record, an end-to-end example). -/
theorem contractual_filter_invariant :
    (∀ (files : List (String × String)) (rec : DenialRecord),
      rec ∈ parse835Files files → rec.reason_code ∉ exclReasons)
    ∧ (∀ (fn : String) (ctx : Ctx) (g : String) (la : List String)
        (r a : String) (rest : List String), r ∈ exclReasons →
        expandTriplets fn ctx g la (r :: a :: rest) =
          expandTriplets fn ctx g la (rest.drop 1))
    ∧ ((scanFile "f" "CAS*PR*45*10*1*1*20*1~").map fun r => r.code_display) =
        ["PR-1"] := by
  refine ⟨?_, ?_, by decide⟩
  · intro files rec h
    exact (parse835Files_mem_props files rec h).2.1
  · intro fn ctx g la r a rest hr
    rw [expandTriplets_cons]
    by_cases h1 : r ≠ "" ∧ g ∈ allowGroups
    · rw [if_pos h1, if_pos hr, List.nil_append]
    · rw [if_neg h1, List.nil_append]

/-- Witness for C3 at concrete inputs. -/
theorem contractual_filter_invariant_witness :
    (mkRecord "f" initCtx "PR" "1" "20" "").reason_code ∉ exclReasons
    ∧ expandTriplets "f" initCtx "CO" [] ("45" :: "5000" :: ["1", "16", "100", "1"]) =
        expandTriplets "f" initCtx "CO" [] (["1", "16", "100", "1"].drop 1) := by
  constructor
  · refine contractual_filter_invariant.1 [("CAS*PR*45*10*1*1*20*1~", "f")] _ ?_
    rw [show parse835Files [("CAS*PR*45*10*1*1*20*1~", "f")] =
      [mkRecord "f" initCtx "PR" "1" "20" ""] from rfl]
    exact List.mem_singleton_self _
  · exact contractual_filter_invariant.2.1 "f" initCtx "CO" [] "45" "5000"
      ["1", "16", "100", "1"] (by decide)

/-- Counterexample to C4 as stated.  Python `float("nan")` parses
successfully, so the amount field `nan` is not routed through the
unparseable-garbage path: the record is emitted with amount
`abs(float("nan"))`, which is NaN, and `nan >= 0` is false (nor is NaN
equal to 0.0) — falsifying the universal non-negativity conjunct. -/
theorem amount_sign_counterexample :
    ((scanFile "f" "CAS*CO*16*nan~").map fun r => r.amount) = [PyFloat.nan]
    ∧ ¬((0 : PyFloat) ≤ PyFloat.nan)
    ∧ PyFloat.nan ≠ 0 := by
  refine ⟨by decide, by decide, by decide⟩

/-- C4 (amended).  Amount sign invariant with the NaN exception the
counterexample forces: every emitted record whose amount is not NaN has
a non-negative amount (negative finite amounts, also in scientific
notation, and `-inf` are stored as their absolute values); unparseable
garbage and an amount field that is empty after symbol stripping still
emit the record, with amount exactly 0. -/
theorem amount_sign_invariant :
    (∀ (files : List (String × String)) (rec : DenialRecord),
      rec ∈ parse835Files files → rec.amount ≠ PyFloat.nan → 0 ≤ rec.amount)
    ∧ ((scanFile "f" "CAS*CO*16*-50~").map fun r => r.amount) = [50]
    ∧ ((scanFile "f" "CAS*CO*16*-1e2~").map fun r => r.amount) = [100]
    ∧ ((scanFile "f" "CAS*CO*16*-inf~").map fun r => r.amount) =
        [PyFloat.posInf]
    ∧ ((scanFile "f" "CAS*CO*16*garbage~").map fun r => r.amount) = [0]
    ∧ ((scanFile "f" "CAS*CO*16*$,~").map fun r => r.amount) = [0] := by
  refine ⟨?_, ?_, ?_, by decide, ?_, ?_⟩
  · intro files rec h hnan
    rcases (parse835Files_mem_props files rec h).2.2.2 with h0 | hn
    · exact h0
    · exact absurd hn hnan
  · rw [show scanFile "f" "CAS*CO*16*-50~" =
      [mkRecord "f" initCtx "CO" "16" "-50" ""] from rfl]
    simp only [List.map_cons, List.map_nil, mkRecord]
    rw [parseAmount_eq_rep "-50" (-50) 0 (by decide) (by decide) (by decide),
      finite_abs, ofNat_eq_finite]
    simp only [List.cons.injEq, and_true, PyFloat.finite.injEq]
    rw [abs_of_nonpos (by norm_num)]
    norm_num
  · rw [show scanFile "f" "CAS*CO*16*-1e2~" =
      [mkRecord "f" initCtx "CO" "16" "-1e2" ""] from rfl]
    simp only [List.map_cons, List.map_nil, mkRecord]
    rw [parseAmount_eq_rep "-1e2" (-100) 0 (by decide) (by decide) (by decide),
      finite_abs, ofNat_eq_finite]
    simp only [List.cons.injEq, and_true, PyFloat.finite.injEq]
    rw [abs_of_nonpos (by norm_num)]
    norm_num
  · rw [show scanFile "f" "CAS*CO*16*garbage~" =
      [mkRecord "f" initCtx "CO" "16" "garbage" ""] from rfl]
    simp only [List.map_cons, List.map_nil, mkRecord]
    rw [show parseAmount "garbage" = PyFloat.finite 0 from rfl, finite_abs,
      ofNat_eq_finite]
    norm_num
  · rw [show scanFile "f" "CAS*CO*16*$,~" =
      [mkRecord "f" initCtx "CO" "16" "$," ""] from rfl]
    simp only [List.map_cons, List.map_nil, mkRecord]
    rw [show parseAmount "$," = PyFloat.finite 0 from rfl, finite_abs,
      ofNat_eq_finite]
    norm_num

/-- Witness for the amended C4 at a concrete input. -/
theorem amount_sign_invariant_witness :
    (mkRecord "f" initCtx "CO" "16" "-50" "").amount ≠ PyFloat.nan
    ∧ 0 ≤ (mkRecord "f" initCtx "CO" "16" "-50" "").amount := by
  refine ⟨by decide, ?_⟩
  refine amount_sign_invariant.1 [("CAS*CO*16*-50~", "f")] _ ?_ (by decide)
  rw [show parse835Files [("CAS*CO*16*-50~", "f")] =
    [mkRecord "f" initCtx "CO" "16" "-50" ""] from rfl]
  exact List.mem_singleton_self _

/-- C5.  Triplet expansion: the extractor's cursor loop emits exactly
the spec-described `(reason, amount)` triplets (consumed from field
index 2, advancing by 3, stopping when the amount field is missing)
that pass the filter; on `CAS*CO*45*5000*1*16*100*1` it yields exactly
one record, with reason code 16 and amount 100. -/
theorem triplet_expansion :
    (∀ (fn : String) (ctx : Ctx) (g : String) (la fs : List String),
      expandTriplets fn ctx g la fs =
        (specTriplets fs).filterMap fun p =>
          if p.1 ≠ "" ∧ g ∈ allowGroups ∧ p.1 ∉ exclReasons then
            some (mkRecord fn ctx g p.1 p.2 (scanRemark 9 la))
          else none)
    ∧ scanFile "f.835" "CAS*CO*45*5000*1*16*100*1~" =
        [mkRecord "f.835" initCtx "CO" "16" "100" ""]
    ∧ ((scanFile "f.835" "CAS*CO*45*5000*1*16*100*1~").map fun r =>
        r.reason_code) = ["16"]
    ∧ ((scanFile "f.835" "CAS*CO*45*5000*1*16*100*1~").map fun r =>
        r.amount) = [100] := by
  refine ⟨expandTriplets_eq_filterMap, rfl, by decide, ?_⟩
  rw [show scanFile "f.835" "CAS*CO*45*5000*1*16*100*1~" =
    [mkRecord "f.835" initCtx "CO" "16" "100" ""] from rfl]
  simp only [List.map_cons, List.map_nil, mkRecord]
  rw [parseAmount_eq_rep "100" 100 0 (by decide) (by decide) (by decide),
    finite_abs, ofNat_eq_finite]
  simp only [List.cons.injEq, and_true, PyFloat.finite.injEq]
  rw [abs_of_nonneg (by norm_num)]
  norm_num

/-- C10.  Empty reason code suppresses the record: no emitted record has
an empty reason code; a triplet whose reason field is empty emits
nothing but the cursor still advances by 3, and later triplets in the
same segment are processed normally (`CAS*CO**100*1*16*50*1` emits
exactly the 16/50 record). -/
theorem empty_reason_suppresses :
    (∀ (files : List (String × String)) (rec : DenialRecord),
      rec ∈ parse835Files files → rec.reason_code ≠ "")
    ∧ (∀ (fn : String) (ctx : Ctx) (g : String) (la : List String)
        (a : String) (rest : List String),
        expandTriplets fn ctx g la ("" :: a :: rest) =
          expandTriplets fn ctx g la (rest.drop 1))
    ∧ scanFile "f" "CAS*CO**100*1*16*50*1~" =
        [mkRecord "f" initCtx "CO" "16" "50" ""]
    ∧ ((scanFile "f" "CAS*CO**100*1*16*50*1~").map fun r =>
        r.code_display) = ["CO-16"] := by
  refine ⟨?_, ?_, rfl, by decide⟩
  · intro files rec h
    exact (parse835Files_mem_props files rec h).1
  · intro fn ctx g la a rest
    rw [expandTriplets_cons]
    rw [if_neg (by simp), List.nil_append]

/-- Witness for C10 at a concrete input. -/
theorem empty_reason_suppresses_witness :
    (mkRecord "f" initCtx "CO" "16" "50" "").reason_code ≠ "" := by
  refine empty_reason_suppresses.1 [("CAS*CO**100*1*16*50*1~", "f")] _ ?_
  rw [show parse835Files [("CAS*CO**100*1*16*50*1~", "f")] =
    [mkRecord "f" initCtx "CO" "16" "50" ""] from rfl]
  exact List.mem_singleton_self _

/-- Counterexample to C1 as stated.  The lookahead loop is
`range(i + 1, min(i + 10, len(segments)))`, which visits only the next
9 segments: in the input below the `LQ` segment has 3 fields and sits
exactly 10 segments after the adjustment, with no intervening `LQ`,
`CAS`, `CLP` or `SE` segment, yet the emitted record's remark code is
empty, not `M143` as the claim requires for positions ≤ 10. -/
theorem remark_lookahead_counterexample :
    (∀ s ∈ ((tokenize
        "CAS*CO*16*100~A*1~A*1~A*1~A*1~A*1~A*1~A*1~A*1~A*1~LQ*HE*M143~").drop
          1).take 9, ¬qualLQ s ∧ ¬boundSeg s)
    ∧ (tokenize
        "CAS*CO*16*100~A*1~A*1~A*1~A*1~A*1~A*1~A*1~A*1~A*1~LQ*HE*M143~").getD
          10 "" = "LQ*HE*M143"
    ∧ qualLQ "LQ*HE*M143"
    ∧ ((scanFile "f"
        "CAS*CO*16*100~A*1~A*1~A*1~A*1~A*1~A*1~A*1~A*1~A*1~LQ*HE*M143~").map
          fun r => r.rarc) = [""]
    ∧ ((scanFile "f"
        "CAS*CO*16*100~A*1~A*1~A*1~A*1~A*1~A*1~A*1~A*1~A*1~LQ*HE*M143~").map
          fun r => r.rarc) ≠ ["M143"] := by
  refine ⟨by decide, by decide, by decide, by decide, by decide⟩

/-- C1 (amended).  Remark lookahead bound, with the window corrected
from 10 to 9 segments: the first `LQ` segment with ≥ 3 fields at
position ≤ 9 after the adjustment, with no earlier qualifying or
boundary segment, is attached (its field 2 becomes the remark code); a
remark segment beyond the 9-segment window, or one after an intervening
`CAS`, `CLP` or `SE` segment, is never attached.  End to end,
`CAS*CO*16*100.00~LQ*HE*M143` emits its record with remark `M143`. -/
theorem remark_lookahead_bound :
    (∀ (pre : List String) (lq : String) (rest : List String),
      pre.length ≤ 8 → (∀ s ∈ pre, ¬qualLQ s ∧ ¬boundSeg s) → qualLQ lq →
      scanRemark 9 (pre ++ lq :: rest) = (segFields lq).getD 2 "")
    ∧ (∀ la : List String, (∀ s ∈ la.take 9, ¬qualLQ s) →
        scanRemark 9 la = "")
    ∧ (∀ (pre : List String) (b : String) (rest : List String),
        (∀ s ∈ pre, ¬qualLQ s ∧ ¬boundSeg s) → boundSeg b →
        scanRemark 9 (pre ++ b :: rest) = "")
    ∧ scanFile "f" "CAS*CO*16*100.00~LQ*HE*M143~" =
        [mkRecord "f" initCtx "CO" "16" "100.00" "M143"] := by
  refine ⟨?_, fun la h => scanRemark_far 9 la h,
    fun pre b rest h hb => scanRemark_boundary 9 pre b rest h hb, rfl⟩
  intro pre lq rest hlen hpre hlq
  exact scanRemark_attach 9 pre lq rest (by omega) hpre hlq

/-- Witness for the amended C1 at concrete inputs: an `LQ` one position
past a date segment is attached; an `LQ` behind a claim-start segment is
not. -/
theorem remark_lookahead_bound_witness :
    scanRemark 9 (["DTM*232*20250101"] ++ "LQ*HE*M51" :: []) =
      (segFields "LQ*HE*M51").getD 2 ""
    ∧ scanRemark 9 (["A*1"] ++ "CLP*X*1" :: ["LQ*HE*M143"]) = "" :=
  ⟨remark_lookahead_bound.1 ["DTM*232*20250101"] "LQ*HE*M51" []
      (by decide) (by decide) (by decide),
    remark_lookahead_bound.2.2.1 ["A*1"] "CLP*X*1" ["LQ*HE*M143"]
      (by decide) (by decide)⟩

/-- C9.  Scan-context frame property: the context starts each file's
scan at the `N/A` sentinels; a claim-start segment with ≥ 2 fields
overwrites only the claim id; the patient is changed only by a
qualifying `NM1` patient segment and the service date only by a
qualifying `DTM` 232 segment, which set them from their fields. -/
theorem scan_context_frame :
    initCtx = ⟨"N/A", "N/A", "N/A"⟩
    ∧ (∀ (ctx : Ctx) (f : List String),
        f.headD "" = "CLP" → 2 ≤ f.length →
        stepCtx ctx f = { ctx with claim_id := f.getD 1 "N/A" })
    ∧ (∀ (ctx : Ctx) (f : List String),
        ¬(f.headD "" = "NM1" ∧ 4 ≤ f.length ∧ f.getD 1 "" = "QC") →
        (stepCtx ctx f).patient = ctx.patient)
    ∧ (∀ (ctx : Ctx) (f : List String),
        ¬(f.headD "" = "DTM" ∧ 3 ≤ f.length ∧ f.getD 1 "" = "232") →
        (stepCtx ctx f).service_date = ctx.service_date)
    ∧ (∀ (ctx : Ctx) (f : List String),
        f.headD "" = "NM1" ∧ 4 ≤ f.length ∧ f.getD 1 "" = "QC" →
        (stepCtx ctx f).patient =
          (if 4 < f.length then f.getD 3 "" ++ " " ++ f.getD 4 ""
           else f.getD 3 ""))
    ∧ (∀ (ctx : Ctx) (f : List String),
        f.headD "" = "DTM" ∧ 3 ≤ f.length ∧ f.getD 1 "" = "232" →
        (stepCtx ctx f).service_date = f.getD 2 "")
    ∧ (∀ fn content, scanFile fn content = scanSegs fn initCtx (tokenize content)) := by
  refine ⟨rfl, ?_, ?_, ?_, ?_, ?_, fun fn content => rfl⟩
  · intro ctx f h1 h2
    rw [stepCtx, updClaim, if_pos ⟨h1, h2⟩,
      updPatient_skip _ _ (fun hc => by rw [h1] at hc; exact absurd hc.1 (by decide)),
      updDate_skip _ _ (fun hc => by rw [h1] at hc; exact absurd hc.1 (by decide))]
  · intro ctx f h
    rw [stepCtx, updDate_patient, updPatient_skip _ _ h, updClaim_patient]
  · intro ctx f h
    rw [stepCtx, updDate_skip _ _ h, updPatient_date, updClaim_date]
  · intro ctx f h
    rw [stepCtx, updDate_patient, updPatient, if_pos h]
  · intro ctx f h
    rw [stepCtx, updDate, if_pos h]

/-- Witness for C9 at concrete segments. -/
theorem scan_context_frame_witness :
    stepCtx initCtx (segFields "CLP*C123*1*500") =
      { initCtx with claim_id := (segFields "CLP*C123*1*500").getD 1 "N/A" }
    ∧ (stepCtx initCtx (segFields "REF*1*2")).patient = initCtx.patient
    ∧ (stepCtx initCtx (segFields "REF*1*2")).service_date = initCtx.service_date
    ∧ (stepCtx initCtx (segFields "NM1*QC*1*DOE*JOHN")).patient =
        (if 4 < (segFields "NM1*QC*1*DOE*JOHN").length then
          (segFields "NM1*QC*1*DOE*JOHN").getD 3 "" ++ " " ++
            (segFields "NM1*QC*1*DOE*JOHN").getD 4 ""
         else (segFields "NM1*QC*1*DOE*JOHN").getD 3 "")
    ∧ (stepCtx initCtx (segFields "DTM*232*20250101")).service_date =
        (segFields "DTM*232*20250101").getD 2 "" :=
  ⟨scan_context_frame.2.1 initCtx (segFields "CLP*C123*1*500")
      (by decide) (by decide),
    scan_context_frame.2.2.1 initCtx (segFields "REF*1*2") (by decide),
    scan_context_frame.2.2.2.1 initCtx (segFields "REF*1*2") (by decide),
    scan_context_frame.2.2.2.2.1 initCtx (segFields "NM1*QC*1*DOE*JOHN")
      (by decide),
    scan_context_frame.2.2.2.2.2.1 initCtx (segFields "DTM*232*20250101")
      (by decide)⟩

/-! ## Loader unfolding lemmas -/

theorem load_some_eq (t : CsvTable) (cc dc : String)
    (hcc : findCodeCol t.columns = some cc)
    (hdc : findDescCol t.columns = some dc) :
    loadFullRecoverabilityMatrix (some t) = t.rows.foldl (loadRow cc dc) [] := by
  simp only [loadFullRecoverabilityMatrix]
  rw [hcc, hdc]

theorem load_some_noCode (t : CsvTable) (hcc : findCodeCol t.columns = none) :
    loadFullRecoverabilityMatrix (some t) = [] := by
  simp only [loadFullRecoverabilityMatrix]
  rw [hcc]

theorem load_some_noDesc (t : CsvTable) (cc : String)
    (hcc : findCodeCol t.columns = some cc)
    (hdc : findDescCol t.columns = none) :
    loadFullRecoverabilityMatrix (some t) = [] := by
  simp only [loadFullRecoverabilityMatrix]
  rw [hcc, hdc]

/-- C2.  Classification precedence for code 29: whenever the reference
source has a row whose (stripped) code is 29, the loaded matrix
classifies 29 as `RESCUE_CANDIDATE`, whatever the official description
says — the manual override beats keyword inference. -/
theorem classification_precedence_29 :
    ∀ (t : CsvTable) (cc dc : String),
      findCodeCol t.columns = some cc → findDescCol t.columns = some dc →
      "29" ∈ (t.rows.map fun row => pyStrip (rowGet row cc)) →
      (getRecoverability (loadFullRecoverabilityMatrix (some t)) "29").status =
        "RESCUE_CANDIDATE" := by
  intro t cc dc hcc hdc h29
  rw [load_some_eq t cc dc hcc hdc]
  have hk : pyStrip "29" ∈ keysOf (t.rows.foldl (loadRow cc dc) []) := by
    rw [show pyStrip "29" = "29" from rfl]
    exact (foldl_keys cc dc t.rows [] "29").mpr (Or.inr h29)
  obtain ⟨p, hpm, hpk, hval⟩ := getRecoverability_mem _ "29" hk
  have hok := foldl_entryOK cc dc t.rows [] (by intro q hq; cases hq) p hpm
  have hpk29 : p.1 = "29" := hpk.trans (by decide)
  have he := hok.1 (manEntry "RESCUE_CANDIDATE" "Timely Filing" (some true)
    "HFS 1624 Override - Retroactive Eligibility Appeal")
    (by rw [hpk29]; decide)
  rw [hval, he]
  rfl

/-- Witness for C2: a source whose description for code 29 contains the
word authorization still yields the rescue-candidate status. -/
theorem classification_precedence_29_witness :
    (getRecoverability (loadFullRecoverabilityMatrix (some
      ⟨["Code", "Description"],
        [[("Code", "29"), ("Description", "Authorization or time limit expired")]]⟩))
      "29").status = "RESCUE_CANDIDATE" :=
  classification_precedence_29
    ⟨["Code", "Description"],
      [[("Code", "29"), ("Description", "Authorization or time limit expired")]]⟩
    "Code" "Description" (by decide) (by decide) (by decide)

/-- C7.  Matrix construction invariant: the loaded matrix has no
duplicate codes; when both columns are found, a code is in the matrix
exactly when it is a (stripped) code of some source row; every stored
entry is the manual entry enriched with a description, or else a
keyword-inferred entry; a code absent from the matrix still resolves to
the default review-required entry. -/
theorem matrix_construction_invariant :
    (∀ src : Option CsvTable,
      (keysOf (loadFullRecoverabilityMatrix src)).Nodup)
    ∧ (∀ (t : CsvTable) (cc dc : String),
        findCodeCol t.columns = some cc → findDescCol t.columns = some dc →
        ∀ k, k ∈ keysOf (loadFullRecoverabilityMatrix (some t)) ↔
          k ∈ t.rows.map fun row => pyStrip (rowGet row cc))
    ∧ (∀ (src : Option CsvTable) (p : String × RecEntry),
        p ∈ loadFullRecoverabilityMatrix src → entryOK p.1 p.2)
    ∧ (∀ (src : Option CsvTable) (c : String),
        pyStrip c ∉ keysOf (loadFullRecoverabilityMatrix src) →
        getRecoverability (loadFullRecoverabilityMatrix src) c = defaultStatus) := by
  refine ⟨?_, ?_, ?_, ?_⟩
  · intro src
    cases src with
    | none => simp [loadFullRecoverabilityMatrix, keysOf]
    | some t =>
      cases hcc : findCodeCol t.columns with
      | none => simp [load_some_noCode t hcc, keysOf]
      | some cc =>
        cases hdc : findDescCol t.columns with
        | none => simp [load_some_noDesc t cc hcc hdc, keysOf]
        | some dc =>
          rw [load_some_eq t cc dc hcc hdc]
          exact foldl_nodup cc dc t.rows [] (by simp [keysOf])
  · intro t cc dc hcc hdc k
    rw [load_some_eq t cc dc hcc hdc, foldl_keys]
    simp [keysOf]
  · intro src p hp
    cases src with
    | none => cases hp
    | some t =>
      cases hcc : findCodeCol t.columns with
      | none => rw [load_some_noCode t hcc] at hp; cases hp
      | some cc =>
        cases hdc : findDescCol t.columns with
        | none => rw [load_some_noDesc t cc hcc hdc] at hp; cases hp
        | some dc =>
          rw [load_some_eq t cc dc hcc hdc] at hp
          exact foldl_entryOK cc dc t.rows [] (by intro q hq; cases hq) p hp
  · intro src c h
    exact getRecoverability_default _ c h

/-- Witness for C7 at a concrete one-row source. -/
theorem matrix_construction_invariant_witness :
    ("29" ∈ keysOf (loadFullRecoverabilityMatrix (some
        ⟨["Code", "Description"], [[("Code", "29"), ("Description", "Auth")]]⟩)) ↔
      "29" ∈ ([[("Code", "29"), ("Description", "Auth")]] :
          List (List (String × String))).map fun row => pyStrip (rowGet row "Code"))
    ∧ getRecoverability (loadFullRecoverabilityMatrix (some
        ⟨["Code", "Description"], [[("Code", "29"), ("Description", "Auth")]]⟩))
        "77" = defaultStatus :=
  ⟨matrix_construction_invariant.2.1
      ⟨["Code", "Description"], [[("Code", "29"), ("Description", "Auth")]]⟩
      "Code" "Description" (by decide) (by decide) "29",
    matrix_construction_invariant.2.2.2 (some
      ⟨["Code", "Description"], [[("Code", "29"), ("Description", "Auth")]]⟩)
      "77" (by decide)⟩

/-- C8.  Graceful degradation: an absent source file, a missing code
column or a missing description column all degrade the matrix to empty
instead of raising, and a lookup against the empty matrix returns the
default review-required entry for every code. -/
theorem matrix_graceful_degradation :
    loadFullRecoverabilityMatrix none = []
    ∧ (∀ t : CsvTable, findCodeCol t.columns = none →
        loadFullRecoverabilityMatrix (some t) = [])
    ∧ (∀ t : CsvTable, findDescCol t.columns = none →
        loadFullRecoverabilityMatrix (some t) = [])
    ∧ (∀ c : String, getRecoverability [] c = defaultStatus) := by
  refine ⟨rfl, ?_, ?_, fun c => rfl⟩
  · intro t h
    exact load_some_noCode t h
  · intro t h
    cases hcc : findCodeCol t.columns with
    | none => exact load_some_noCode t hcc
    | some cc => exact load_some_noDesc t cc hcc h

/-- Witness for C8 at concrete degenerate sources. -/
theorem matrix_graceful_degradation_witness :
    loadFullRecoverabilityMatrix (some ⟨["Reason", "Description"], []⟩) = []
    ∧ loadFullRecoverabilityMatrix (some ⟨["Code"],
        [[("Code", "29")]]⟩) = [] :=
  ⟨matrix_graceful_degradation.2.1 ⟨["Reason", "Description"], []⟩ (by decide),
    matrix_graceful_degradation.2.2.1 ⟨["Code"], [[("Code", "29")]]⟩ (by decide)⟩

/-- Counterexample to C6 as stated.  Two classifier rules run before and
around the timely-filing rule in ways the claim omits: a description
containing both a patient-cost-share term and a timely-filing term (no
authorization language at all) classifies as `PATIENT_RESPONSIBILITY`,
not rescue-candidate; and a description containing a timely-filing term
together with the precertification term `pre-cert` (from the
classifier's own authorization keyword list) classifies as
`RESCUE_CANDIDATE`, not fatal-prevention, because the timely rule only
screens for the substrings `authorization` and `precert`. -/
theorem timely_filing_rule_counterexample :
    manualLookup "999" = none
    ∧ (timelyKeywords.any fun k =>
        occursIn k (lowerStr "Deductible not met within the time limit")) = true
    ∧ occursIn "authorization"
        (lowerStr "Deductible not met within the time limit") = false
    ∧ occursIn "precert"
        (lowerStr "Deductible not met within the time limit") = false
    ∧ (autoClassifyCode "999" "Deductible not met within the time limit").status =
        "PATIENT_RESPONSIBILITY"
    ∧ (autoClassifyCode "999" "Deductible not met within the time limit").status ≠
        "RESCUE_CANDIDATE"
    ∧ manualLookup "998" = none
    ∧ (timelyKeywords.any fun k =>
        occursIn k (lowerStr "Past filing deadline and pre-cert required")) = true
    ∧ (authKeywords.any fun k =>
        occursIn k (lowerStr "Past filing deadline and pre-cert required")) = true
    ∧ (autoClassifyCode "998" "Past filing deadline and pre-cert required").status =
        "RESCUE_CANDIDATE"
    ∧ (autoClassifyCode "998" "Past filing deadline and pre-cert required").status ≠
        "FATAL_PREVENTION" := by
  refine ⟨by decide, by decide, by decide, by decide, by decide, by decide,
    by decide, by decide, by decide, by decide, by decide⟩

/-- C6 (amended).  Timely-filing inference, restated with the actual
rule guards: for a code outside the manual table whose description
contains a timely-filing term, contains neither of the screening
substrings `authorization` and `precert`, and contains no
patient-cost-share term (the patient rule runs first), classification
is `RESCUE_CANDIDATE`; if instead the description contains the
substring `authorization` or `precert` (and still no patient term), the
timely rule is skipped and the authorization rule yields
`FATAL_PREVENTION`. -/
theorem timely_filing_rule :
    ∀ (code desc : String), manualLookup code = none →
      (timelyKeywords.any fun k => occursIn k (lowerStr desc)) = true →
      (patientKeywords.any fun k => occursIn k (lowerStr desc)) = false →
      ((occursIn "authorization" (lowerStr desc) = false →
        occursIn "precert" (lowerStr desc) = false →
        (autoClassifyCode code desc).status = "RESCUE_CANDIDATE")
      ∧ (occursIn "authorization" (lowerStr desc) = true ∨
          occursIn "precert" (lowerStr desc) = true →
        (autoClassifyCode code desc).status = "FATAL_PREVENTION")) := by
  intro code desc hml ht hp
  constructor
  · intro ha hpc
    simp only [autoClassifyCode, hp, Bool.false_eq_true, if_false]
    rw [if_pos]
    · simp only [ha, hpc, Bool.not_false, Bool.and_true]
      exact ht
  · intro hor
    have htf : (timelyKeywords.any fun k =>
        occursIn k (lowerStr desc) && !occursIn "authorization" (lowerStr desc) &&
          !occursIn "precert" (lowerStr desc)) = false := by
      rcases hor with ha | hpc
      · simp [ha]
      · simp [hpc]
    have hauth : (authKeywords.any fun k => occursIn k (lowerStr desc)) = true := by
      rcases hor with ha | hpc
      · exact List.any_eq_true.mpr ⟨"authorization", by decide, ha⟩
      · exact List.any_eq_true.mpr ⟨"precert", by decide, hpc⟩
    simp only [autoClassifyCode, hp, Bool.false_eq_true, if_false, htf, hauth,
      if_true]

/-- Witness for the amended C6 at concrete descriptions. -/
theorem timely_filing_rule_witness :
    (autoClassifyCode "999" "Claim past timely filing window").status =
      "RESCUE_CANDIDATE"
    ∧ (autoClassifyCode "999" "Timely filing and authorization issue").status =
      "FATAL_PREVENTION" :=
  ⟨(timely_filing_rule "999" "Claim past timely filing window"
      (by decide) (by decide) (by decide)).1 (by decide) (by decide),
    (timely_filing_rule "999" "Timely filing and authorization issue"
      (by decide) (by decide) (by decide)).2 (Or.inl (by decide))⟩

end VeldenVault
